import Mathlib

/-!
Verification of the OSG Flocking report pipeline
(`src/reports/osg_reports/OSGFlockingReporter.py`).

The embedding below translates the three stages of the pipeline:

* `FlockingReport.query`   — construction of the aggregation request;
* `FlockingReport.generate` — flattening of the 4-level bucket tree returned
  by the store into 5-tuples `(sitekey, vokey, probekey, projectkey, hours)`;
* `FlockingReport.format_report` — assembly of the flat records into the
  column dictionary with a synthesized total row.

Metric values (floats in Python) are modelled as exact rationals `ℚ`;
the summation order of the source (left fold in input order) is preserved.
The report dictionary is modelled as a partial map `String → Option (List Cell)`.
-/

namespace FlockingReport

/-- A report cell is either a string (dimension keys, "Total", "") or a
numeric wall-hours value. -/
inductive Cell where
  | str : String → Cell
  | num : ℚ → Cell
deriving DecidableEq, Repr

/-- One flat record as yielded by `generate`:
`(sitekey, vokey, probekey, project.key, project.CoreHours_sum.value)`. -/
abbrev FlatRecord := String × String × String × String × ℚ

/-- `self.header` from `FlockingReport.__init__`. -/
def header : List String :=
  ["VOName", "SiteName", "ProbeName", "ProjectName", "Wall Hours"]

/-- Fourth-level bucket: a `group_ProjectName` bucket with its leaf sum
metric `CoreHours_sum.value`. -/
structure ProjectBucket where
  key : String
  CoreHours_sum : ℚ

/-- Third-level bucket: `group_ProbeName`. -/
structure ProbeBucket where
  key : String
  group_ProjectName : List ProjectBucket

/-- Second-level bucket: `group_VOName`. -/
structure VOBucket where
  key : String
  group_ProbeName : List ProbeBucket

/-- First-level bucket: `group_Site`. -/
structure SiteBucket where
  key : String
  group_VOName : List VOBucket

/-- The aggregation result tree handed to `generate` by `run_query`. -/
structure BucketTree where
  group_Site : List SiteBucket

/-- `FlockingReport.generate`: iterate the four nested bucket levels in
order Site, VO, Probe, Project and yield one tuple per fourth-level
bucket. -/
def generate (t : BucketTree) : List FlatRecord :=
  t.group_Site.flatMap fun site =>
    site.group_VOName.flatMap fun vo =>
      vo.group_ProbeName.flatMap fun probe =>
        probe.group_ProjectName.map fun project =>
          (site.key, vo.key, probe.key, project.key, project.CoreHours_sum)

/-- Number of fourth-level buckets (leaves) of a tree. -/
def numLeaves (t : BucketTree) : ℕ :=
  (t.group_Site.map fun site =>
    (site.group_VOName.map fun vo =>
      (vo.group_ProbeName.map fun probe =>
        probe.group_ProjectName.length).sum).sum).sum

/-- The `report` dictionary of `format_report`: a partial map from column
name to the list of cells appended so far. -/
abbrev Report := String → Option (List Cell)

/-- The empty dictionary `report = \x7b\x7d`. -/
def emptyDict : Report := fun _ => none

/-- Dictionary store `report[k] = v`. -/
def dictSet (r : Report) (k : String) (v : List Cell) : Report :=
  fun q => if q = k then some v else r q

/-- The loop `for name in self.header: if name not in report: report[name] = []`. -/
def initReport : Report :=
  header.foldl (fun r name => if (r name).isSome then r else dictSet r name []) emptyDict

/-- `report[k].append(c)`. A missing key would raise `KeyError` in Python;
in the pipeline every touched key was initialized from `header`, so the
`none` branch is unreachable and modelled as a no-op. -/
def appendCell (r : Report) (k : String) (c : Cell) : Report :=
  match r k with
  | some v => dictSet r k (v ++ [c])
  | none => r

/-- The five cells of one yielded tuple, in positional order. -/
def recordCells (t : FlatRecord) : List Cell :=
  [Cell.str t.1, Cell.str t.2.1, Cell.str t.2.2.1, Cell.str t.2.2.2.1,
   Cell.num t.2.2.2.2]

/-- One iteration of the record loop of `format_report`:
`mapdict = dict(zip(self.header, result_tuple))` followed by appending each
`(key, item)` pair to its column. -/
def addRecord (r : Report) (t : FlatRecord) : Report :=
  (header.zip (recordCells t)).foldl (fun rep kc => appendCell rep kc.1 kc.2) r

/-- Numeric value of a cell as the Python `sum` builtin would consume it.
In the pipeline only `Cell.num` cells ever reach `sum` (a string cell would
be a `TypeError`), so the `str` branch is unreachable. -/
def cellVal : Cell → ℚ
  | Cell.num q => q
  | Cell.str _ => 0

/-- `sum(report['Wall Hours'])`: left fold in list order starting from 0. -/
def sumCells (l : List Cell) : ℚ :=
  l.foldl (fun a c => a + cellVal c) 0

/-- The total-row loop of `format_report`: append `'Total'` to `VOName`,
`tot` to `Wall Hours` and `''` to every other column. -/
def addTotalRow (r : Report) (tot : ℚ) : Report :=
  header.foldl (fun rep col =>
    if col = "VOName" then appendCell rep col (Cell.str "Total")
    else if col = "Wall Hours" then appendCell rep col (Cell.num tot)
    else appendCell rep col (Cell.str "")) r

/-- The tab-separated line printed for one tuple when `verbose` is set. -/
def fmtLine (t : FlatRecord) : String :=
  t.1 ++ "\t" ++ t.2.1 ++ "\t" ++ t.2.2.1 ++ "\t" ++ t.2.2.2.1 ++ "\t" ++
    toString t.2.2.2.2

/-- The total line printed when `verbose` is set. -/
def totalLine (tot : ℚ) : String :=
  "The total Wall hours in this report are " ++ toString tot

/-- One iteration of the record loop, with the verbose print modelled as an
appended output line. -/
def loopStep (verbose : Bool) (p : Report × List String) (t : FlatRecord) :
    Report × List String :=
  (addRecord p.1 t, if verbose then p.2 ++ [fmtLine t] else p.2)

/-- `FlockingReport.format_report`, with the records already materialized
from `generate` and the printed lines returned as a second component. -/
def format_report (verbose : Bool) (records : List FlatRecord) :
    Report × List String :=
  let folded := records.foldl (loopStep verbose) (initReport, [])
  let tot := sumCells ((folded.1 "Wall Hours").getD [])
  (addTotalRow folded.1 tot,
   if verbose then folded.2 ++ [totalLine tot] else folded.2)

/-- The rows of an assembled report: the i-th row lists the i-th cell of
each column, columns taken in `header` order. -/
def reportRows (r : Report) : List (List Cell) :=
  (header.map fun c => (r c).getD []).transpose

/-- `re.split(',', s)` on the probe configuration string, modelled over the
character list: split at every comma, keeping empty pieces. -/
def splitComma : List Char → List (List Char)
  | [] => [[]]
  | c :: cs =>
    if c = ',' then [] :: splitComma cs
    else
      match splitComma cs with
      | [] => [[c]]
      | w :: ws => (c :: w) :: ws

/-- `probeslist = split(',', probes)` lifted to `String`. -/
def splitCommaStr (s : String) : List String :=
  (splitComma s.toList).map fun l => String.mk l

/-- `MAXINT = 2**31 - 1`. -/
def MAXINT : ℕ := 2 ^ 31 - 1

/-- A filter clause of the search request. The `range` clause carries its
parameter dictionary as `(key, value)` pairs, as passed to
`.filter("range", EndTime=...)`. -/
inductive Filter where
  | range : String → List (String × String) → Filter
  | terms : String → List String → Filter
  | term : String → String → Filter

/-- An aggregation node: either a `terms` bucket aggregation (name, agg
kind, field, size, optional `missing` substitute, sub-aggregations) or a
leaf metric (name, op, field). -/
inductive Agg where
  | bucket : String → String → String → ℕ → Option String → List Agg → Agg
  | metric : String → String → String → Agg

/-- The search request built by `FlockingReport.query`. -/
structure SearchQuery where
  index : String
  filters : List Filter
  sliceFrom : ℕ
  sliceTo : ℕ
  aggs : List Agg

/-- `FlockingReport.query`: `starttimeq` and `endtimeq` are the ISO strings
produced by the external `dateparse_to_iso` collaborator, `probes` the raw
comma-delimited configuration value. -/
def query (indexpattern starttimeq endtimeq probes : String) : SearchQuery :=
  let probeslist := splitCommaStr probes
  { index := indexpattern
    filters := [Filter.range "EndTime" [("gte", starttimeq), ("lt", endtimeq)],
                Filter.terms "ProbeName" probeslist,
                Filter.term "ResourceType" "Payload"]
    sliceFrom := 0
    sliceTo := 0
    aggs := [Agg.bucket "group_Site" "terms" "SiteName" MAXINT none
              [Agg.bucket "group_VOName" "terms" "ReportableVOName" MAXINT none
                [Agg.bucket "group_ProbeName" "terms" "ProbeName" MAXINT none
                  [Agg.bucket "group_ProjectName" "terms" "ProjectName" MAXINT
                    (some "N/A")
                    [Agg.metric "CoreHours_sum" "sum" "CoreHours"]]]]] }

/-- Rejoin split pieces with commas: the specification-side inverse used to
characterize `splitComma`. -/
def joinComma : List (List Char) → List Char
  | [] => []
  | [w] => w
  | w :: ws => w ++ ',' :: joinComma ws

/-- Specification-side flattening, written from the spec's words (section
4.2): depth-first over the four levels in the order Site, VO, Probe,
Project, in the store's bucket order, one record per fourth-level bucket,
with no filtering, sorting or deduplication. Compared against `generate`. -/
def flattenSpec (t : BucketTree) : List FlatRecord :=
  (t.group_Site.map fun site =>
    (site.group_VOName.map fun vo =>
      (vo.group_ProbeName.map fun probe =>
        probe.group_ProjectName.map fun project =>
          (site.key, vo.key, probe.key, project.key,
            project.CoreHours_sum)).flatten).flatten).flatten

/-- The end-to-end scenario tree of spec section 8:
Site "A" → VO "VO1" → Probe "P1" → Projects Proj1 (10.0) and Proj2 (5.0). -/
def treeC1 : BucketTree :=
  ⟨[⟨"A", [⟨"VO1", [⟨"P1", [⟨"Proj1", 10⟩, ⟨"Proj2", 5⟩]⟩]⟩]⟩]⟩

/-- The one-leaf order-preservation tree of spec section 8. -/
def treeS1 : BucketTree :=
  ⟨[⟨"S1", [⟨"V1", [⟨"P1", [⟨"Pr1", 5⟩]⟩]⟩]⟩]⟩

/-- A result tree with zero site buckets. -/
def emptyTree : BucketTree := { group_Site := [] }

/-! Helper lemmas about the dictionary operations. -/

theorem appendCell_same (r : Report) (k : String) (c : Cell) (v : List Cell)
    (h : r k = some v) : appendCell r k c k = some (v ++ [c]) := by
  unfold appendCell
  rw [h]
  simp [dictSet]

theorem appendCell_other (r : Report) (k q : String) (c : Cell) (h : q ≠ k) :
    appendCell r k c q = r q := by
  unfold appendCell
  cases hk : r k with
  | none => rfl
  | some v => simp [dictSet, h]

theorem addRecord_eq (r : Report) (t : FlatRecord) :
    addRecord r t =
      appendCell (appendCell (appendCell (appendCell
        (appendCell r "VOName" (Cell.str t.1))
        "SiteName" (Cell.str t.2.1))
        "ProbeName" (Cell.str t.2.2.1))
        "ProjectName" (Cell.str t.2.2.2.1))
        "Wall Hours" (Cell.num t.2.2.2.2) := rfl

theorem addRecord_VOName (r : Report) (t : FlatRecord) (v : List Cell)
    (h : r "VOName" = some v) :
    addRecord r t "VOName" = some (v ++ [Cell.str t.1]) := by
  rw [addRecord_eq]
  rw [appendCell_other _ _ _ _ (by decide), appendCell_other _ _ _ _ (by decide),
      appendCell_other _ _ _ _ (by decide), appendCell_other _ _ _ _ (by decide)]
  exact appendCell_same _ _ _ _ h

theorem addRecord_SiteName (r : Report) (t : FlatRecord) (v : List Cell)
    (h : r "SiteName" = some v) :
    addRecord r t "SiteName" = some (v ++ [Cell.str t.2.1]) := by
  rw [addRecord_eq]
  rw [appendCell_other _ _ _ _ (by decide), appendCell_other _ _ _ _ (by decide),
      appendCell_other _ _ _ _ (by decide)]
  exact appendCell_same _ _ _ _ (by rw [appendCell_other _ _ _ _ (by decide)]; exact h)

theorem addRecord_ProbeName (r : Report) (t : FlatRecord) (v : List Cell)
    (h : r "ProbeName" = some v) :
    addRecord r t "ProbeName" = some (v ++ [Cell.str t.2.2.1]) := by
  rw [addRecord_eq]
  rw [appendCell_other _ _ _ _ (by decide), appendCell_other _ _ _ _ (by decide)]
  refine appendCell_same _ _ _ _ ?_
  rw [appendCell_other _ _ _ _ (by decide), appendCell_other _ _ _ _ (by decide)]
  exact h

theorem addRecord_ProjectName (r : Report) (t : FlatRecord) (v : List Cell)
    (h : r "ProjectName" = some v) :
    addRecord r t "ProjectName" = some (v ++ [Cell.str t.2.2.2.1]) := by
  rw [addRecord_eq]
  rw [appendCell_other _ _ _ _ (by decide)]
  refine appendCell_same _ _ _ _ ?_
  rw [appendCell_other _ _ _ _ (by decide), appendCell_other _ _ _ _ (by decide),
      appendCell_other _ _ _ _ (by decide)]
  exact h

theorem addRecord_WallHours (r : Report) (t : FlatRecord) (v : List Cell)
    (h : r "Wall Hours" = some v) :
    addRecord r t "Wall Hours" = some (v ++ [Cell.num t.2.2.2.2]) := by
  rw [addRecord_eq]
  refine appendCell_same _ _ _ _ ?_
  rw [appendCell_other _ _ _ _ (by decide), appendCell_other _ _ _ _ (by decide),
      appendCell_other _ _ _ _ (by decide), appendCell_other _ _ _ _ (by decide)]
  exact h

theorem addRecord_other (r : Report) (t : FlatRecord) (q : String)
    (h1 : q ≠ "VOName") (h2 : q ≠ "SiteName") (h3 : q ≠ "ProbeName")
    (h4 : q ≠ "ProjectName") (h5 : q ≠ "Wall Hours") :
    addRecord r t q = r q := by
  rw [addRecord_eq]
  rw [appendCell_other _ _ _ _ h5, appendCell_other _ _ _ _ h4,
      appendCell_other _ _ _ _ h3, appendCell_other _ _ _ _ h2,
      appendCell_other _ _ _ _ h1]

/-- Closed form of the record loop on every header column: starting from a
dictionary holding the five header columns, folding the records appends one
positional cell per record to each column. -/
theorem foldl_addRecord_cols (records : List FlatRecord) :
    ∀ (r : Report) (v1 v2 v3 v4 v5 : List Cell),
    r "VOName" = some v1 → r "SiteName" = some v2 → r "ProbeName" = some v3 →
    r "ProjectName" = some v4 → r "Wall Hours" = some v5 →
    (records.foldl addRecord r) "VOName"
        = some (v1 ++ records.map fun t => Cell.str t.1) ∧
    (records.foldl addRecord r) "SiteName"
        = some (v2 ++ records.map fun t => Cell.str t.2.1) ∧
    (records.foldl addRecord r) "ProbeName"
        = some (v3 ++ records.map fun t => Cell.str t.2.2.1) ∧
    (records.foldl addRecord r) "ProjectName"
        = some (v4 ++ records.map fun t => Cell.str t.2.2.2.1) ∧
    (records.foldl addRecord r) "Wall Hours"
        = some (v5 ++ records.map fun t => Cell.num t.2.2.2.2) := by
  induction records with
  | nil => intro r v1 v2 v3 v4 v5 h1 h2 h3 h4 h5; simp [h1, h2, h3, h4, h5]
  | cons t ts ih =>
    intro r v1 v2 v3 v4 v5 h1 h2 h3 h4 h5
    have := ih (addRecord r t)
      (v1 ++ [Cell.str t.1]) (v2 ++ [Cell.str t.2.1]) (v3 ++ [Cell.str t.2.2.1])
      (v4 ++ [Cell.str t.2.2.2.1]) (v5 ++ [Cell.num t.2.2.2.2])
      (addRecord_VOName r t v1 h1) (addRecord_SiteName r t v2 h2)
      (addRecord_ProbeName r t v3 h3) (addRecord_ProjectName r t v4 h4)
      (addRecord_WallHours r t v5 h5)
    simpa [List.append_assoc] using this

/-- The record loop never touches a key outside the header. -/
theorem foldl_addRecord_other (records : List FlatRecord) :
    ∀ (r : Report) (q : String),
    q ≠ "VOName" → q ≠ "SiteName" → q ≠ "ProbeName" → q ≠ "ProjectName" →
    q ≠ "Wall Hours" → (records.foldl addRecord r) q = r q := by
  induction records with
  | nil => intro r q _ _ _ _ _; rfl
  | cons t ts ih =>
    intro r q h1 h2 h3 h4 h5
    have := ih (addRecord r t) q h1 h2 h3 h4 h5
    rw [List.foldl_cons, this, addRecord_other r t q h1 h2 h3 h4 h5]

/-- `initReport` evaluated: the five header columns are initialized empty. -/
theorem initReport_eq :
    initReport = dictSet (dictSet (dictSet (dictSet
      (dictSet emptyDict "VOName" []) "SiteName" []) "ProbeName" [])
      "ProjectName" []) "Wall Hours" [] := rfl

/-- The first component of the verbose-aware loop fold is the plain record
fold: printing never feeds back into the dictionary. -/
theorem foldl_loopStep_fst (verbose : Bool) (records : List FlatRecord) :
    ∀ (r : Report) (ls : List String),
    (records.foldl (loopStep verbose) (r, ls)).1 = records.foldl addRecord r := by
  induction records with
  | nil => intro r ls; rfl
  | cons t ts ih => intro r ls; exact ih (addRecord r t) _

/-- `format_report` in terms of the plain record fold. -/
theorem format_report_fst (verbose : Bool) (records : List FlatRecord) :
    (format_report verbose records).1 =
      addTotalRow (records.foldl addRecord initReport)
        (sumCells (((records.foldl addRecord initReport) "Wall Hours").getD [])) := by
  unfold format_report
  simp only [foldl_loopStep_fst]

/-- `addTotalRow` evaluated over the concrete header. -/
theorem addTotalRow_eq (r : Report) (tot : ℚ) :
    addTotalRow r tot =
      appendCell (appendCell (appendCell (appendCell
        (appendCell r "VOName" (Cell.str "Total"))
        "SiteName" (Cell.str ""))
        "ProbeName" (Cell.str ""))
        "ProjectName" (Cell.str ""))
        "Wall Hours" (Cell.num tot) := by
  simp [addTotalRow, header]

theorem addTotalRow_VOName (r : Report) (tot : ℚ) (v : List Cell)
    (h : r "VOName" = some v) :
    addTotalRow r tot "VOName" = some (v ++ [Cell.str "Total"]) := by
  rw [addTotalRow_eq]
  rw [appendCell_other _ _ _ _ (by decide), appendCell_other _ _ _ _ (by decide),
      appendCell_other _ _ _ _ (by decide), appendCell_other _ _ _ _ (by decide)]
  exact appendCell_same _ _ _ _ h

theorem addTotalRow_SiteName (r : Report) (tot : ℚ) (v : List Cell)
    (h : r "SiteName" = some v) :
    addTotalRow r tot "SiteName" = some (v ++ [Cell.str ""]) := by
  rw [addTotalRow_eq]
  rw [appendCell_other _ _ _ _ (by decide), appendCell_other _ _ _ _ (by decide),
      appendCell_other _ _ _ _ (by decide)]
  refine appendCell_same _ _ _ _ ?_
  rw [appendCell_other _ _ _ _ (by decide)]
  exact h

theorem addTotalRow_ProbeName (r : Report) (tot : ℚ) (v : List Cell)
    (h : r "ProbeName" = some v) :
    addTotalRow r tot "ProbeName" = some (v ++ [Cell.str ""]) := by
  rw [addTotalRow_eq]
  rw [appendCell_other _ _ _ _ (by decide), appendCell_other _ _ _ _ (by decide)]
  refine appendCell_same _ _ _ _ ?_
  rw [appendCell_other _ _ _ _ (by decide), appendCell_other _ _ _ _ (by decide)]
  exact h

theorem addTotalRow_ProjectName (r : Report) (tot : ℚ) (v : List Cell)
    (h : r "ProjectName" = some v) :
    addTotalRow r tot "ProjectName" = some (v ++ [Cell.str ""]) := by
  rw [addTotalRow_eq]
  rw [appendCell_other _ _ _ _ (by decide)]
  refine appendCell_same _ _ _ _ ?_
  rw [appendCell_other _ _ _ _ (by decide), appendCell_other _ _ _ _ (by decide),
      appendCell_other _ _ _ _ (by decide)]
  exact h

theorem addTotalRow_WallHours (r : Report) (tot : ℚ) (v : List Cell)
    (h : r "Wall Hours" = some v) :
    addTotalRow r tot "Wall Hours" = some (v ++ [Cell.num tot]) := by
  rw [addTotalRow_eq]
  refine appendCell_same _ _ _ _ ?_
  rw [appendCell_other _ _ _ _ (by decide), appendCell_other _ _ _ _ (by decide),
      appendCell_other _ _ _ _ (by decide), appendCell_other _ _ _ _ (by decide)]
  exact h

theorem addTotalRow_other (r : Report) (tot : ℚ) (q : String)
    (h1 : q ≠ "VOName") (h2 : q ≠ "SiteName") (h3 : q ≠ "ProbeName")
    (h4 : q ≠ "ProjectName") (h5 : q ≠ "Wall Hours") :
    addTotalRow r tot q = r q := by
  rw [addTotalRow_eq]
  rw [appendCell_other _ _ _ _ h5, appendCell_other _ _ _ _ h4,
      appendCell_other _ _ _ _ h3, appendCell_other _ _ _ _ h2,
      appendCell_other _ _ _ _ h1]

/-- Master closed form of `format_report`: each header column holds the
positionally matching cells of the records followed by the total-row cell,
and the total is the sum of the Wall Hours column before the total row. -/
theorem format_report_cols (verbose : Bool) (records : List FlatRecord) :
    (format_report verbose records).1 "VOName"
        = some ((records.map fun t => Cell.str t.1) ++ [Cell.str "Total"]) ∧
    (format_report verbose records).1 "SiteName"
        = some ((records.map fun t => Cell.str t.2.1) ++ [Cell.str ""]) ∧
    (format_report verbose records).1 "ProbeName"
        = some ((records.map fun t => Cell.str t.2.2.1) ++ [Cell.str ""]) ∧
    (format_report verbose records).1 "ProjectName"
        = some ((records.map fun t => Cell.str t.2.2.2.1) ++ [Cell.str ""]) ∧
    (format_report verbose records).1 "Wall Hours"
        = some ((records.map fun t => Cell.num t.2.2.2.2)
            ++ [Cell.num (sumCells (records.map fun t => Cell.num t.2.2.2.2))]) := by
  obtain ⟨h1, h2, h3, h4, h5⟩ :=
    foldl_addRecord_cols records initReport [] [] [] [] [] rfl rfl rfl rfl rfl
  rw [format_report_fst, h5]
  simp only [Option.getD_some, List.nil_append] at h1 h2 h3 h4 h5 ⊢
  exact ⟨addTotalRow_VOName _ _ _ h1, addTotalRow_SiteName _ _ _ h2,
         addTotalRow_ProbeName _ _ _ h3, addTotalRow_ProjectName _ _ _ h4,
         addTotalRow_WallHours _ _ _ h5⟩

/-- Keys outside the header are absent from the assembled report. -/
theorem format_report_none (verbose : Bool) (records : List FlatRecord)
    (q : String) (h1 : q ≠ "VOName") (h2 : q ≠ "SiteName")
    (h3 : q ≠ "ProbeName") (h4 : q ≠ "ProjectName") (h5 : q ≠ "Wall Hours") :
    (format_report verbose records).1 q = none := by
  rw [format_report_fst, addTotalRow_other _ _ _ h1 h2 h3 h4 h5,
      foldl_addRecord_other records initReport q h1 h2 h3 h4 h5,
      initReport_eq]
  simp [dictSet, emptyDict, h1, h2, h3, h4, h5]

/-! Helper lemmas about flattening and splitting. -/

theorem length_flatMap_fun {α β : Type} (l : List α) (f : α → List β) :
    (l.flatMap f).length = (l.map fun a => (f a).length).sum := by
  simp [List.length_flatMap, Function.comp_def]

theorem generate_length (t : BucketTree) : (generate t).length = numLeaves t := by
  simp only [generate, numLeaves, length_flatMap_fun, List.length_map]

theorem generate_eq_flattenSpec (t : BucketTree) : generate t = flattenSpec t := by
  simp [generate, flattenSpec, List.flatMap_def, List.map_map]

theorem splitComma_ne_nil (l : List Char) : splitComma l ≠ [] := by
  cases l with
  | nil => simp [splitComma]
  | cons c cs =>
    simp only [splitComma]
    by_cases hc : c = ','
    · simp [hc]
    · simp only [if_neg hc]
      cases h : splitComma cs <;> simp

theorem joinComma_cons (c : Char) (w : List Char) (ws : List (List Char)) :
    joinComma ((c :: w) :: ws) = c :: joinComma (w :: ws) := by
  cases ws <;> rfl

theorem joinComma_splitComma (l : List Char) : joinComma (splitComma l) = l := by
  induction l with
  | nil => rfl
  | cons c cs ih =>
    by_cases hc : c = ','
    · subst hc
      simp only [splitComma, if_pos rfl]
      cases hsc : splitComma cs with
      | nil => exact absurd hsc (splitComma_ne_nil cs)
      | cons w ws =>
        rw [hsc] at ih
        calc joinComma ([] :: w :: ws) = ',' :: joinComma (w :: ws) := rfl
        _ = ',' :: cs := by rw [ih]
    · cases hsc : splitComma cs with
      | nil => exact absurd hsc (splitComma_ne_nil cs)
      | cons w ws =>
        simp only [splitComma, if_neg hc, hsc]
        rw [hsc] at ih
        rw [joinComma_cons, ih]

theorem splitComma_length (l : List Char) :
    (splitComma l).length = l.count ',' + 1 := by
  induction l with
  | nil => simp [splitComma]
  | cons c cs ih =>
    by_cases hc : c = ','
    · subst hc
      simp [splitComma, List.count_cons, ih]
    · cases hsc : splitComma cs with
      | nil => exact absurd hsc (splitComma_ne_nil cs)
      | cons w ws =>
        rw [hsc] at ih
        simp only [splitComma, if_neg hc, hsc]
        simp only [List.length_cons] at ih ⊢
        rw [ih]
        simp [List.count_cons, hc]

theorem splitComma_no_comma (l : List Char) :
    ((splitComma l).all fun w => w.all fun c => c != ',') = true := by
  induction l with
  | nil => simp [splitComma]
  | cons c cs ih =>
    by_cases hc : c = ','
    · subst hc
      simpa [splitComma] using ih
    · cases hsc : splitComma cs with
      | nil => exact absurd hsc (splitComma_ne_nil cs)
      | cons w ws =>
        rw [hsc] at ih
        simp only [splitComma, if_neg hc, hsc]
        simp only [List.all_cons, Bool.and_eq_true] at ih ⊢
        exact ⟨⟨by simpa using hc, ih.1⟩, ih.2⟩

theorem foldl_cellVal (qs : List ℚ) :
    ∀ a : ℚ, (qs.map Cell.num).foldl (fun x c => x + cellVal c) a
      = qs.foldl (fun x y => x + y) a := by
  induction qs with
  | nil => intro a; rfl
  | cons q qs ih =>
    intro a
    simp only [List.map_cons, List.foldl_cons, cellVal]
    exact ih (a + q)

theorem sumCells_map_num (qs : List ℚ) :
    sumCells (qs.map Cell.num) = qs.foldl (fun x y => x + y) 0 :=
  foldl_cellVal qs 0

/-! Claim theorems. -/

/-- C1 (code bug): at the spec's end-to-end tree (Site "A" → VO "VO1" →
Probe "P1" → Proj1: 10, Proj2: 5) the code's assembled rows, read in header
column order, are ("A","VO1","P1","Proj1",10), ("A","VO1","P1","Proj2",5)
and ("Total","","","",15): the positional zip of `format_report` places the
site key under the "VOName" column and the VO key under "SiteName", so the
rows the claim states are not produced. -/
theorem claim_C1_actual_rows :
    reportRows (format_report false (generate treeC1)).1
      = [[Cell.str "A", Cell.str "VO1", Cell.str "P1", Cell.str "Proj1", Cell.num 10],
         [Cell.str "A", Cell.str "VO1", Cell.str "P1", Cell.str "Proj2", Cell.num 5],
         [Cell.str "Total", Cell.str "", Cell.str "", Cell.str "", Cell.num 15]] ∧
    reportRows (format_report false (generate treeC1)).1
      ≠ [[Cell.str "VO1", Cell.str "A", Cell.str "P1", Cell.str "Proj1", Cell.num 10],
         [Cell.str "VO1", Cell.str "A", Cell.str "P1", Cell.str "Proj2", Cell.num 5],
         [Cell.str "Total", Cell.str "", Cell.str "", Cell.str "", Cell.num 15]] := by
  have hg : generate treeC1
      = [("A", "VO1", "P1", "Proj1", (10 : ℚ)), ("A", "VO1", "P1", "Proj2", (5 : ℚ))] := rfl
  have hcols := format_report_cols false (generate treeC1)
  rw [hg] at hcols
  simp only [List.map_cons, List.map_nil] at hcols
  have hsum : sumCells [Cell.num 10, Cell.num 5] = 15 := by
    norm_num [sumCells, cellVal]
  rw [hsum] at hcols
  obtain ⟨h1, h2, h3, h4, h5⟩ := hcols
  have heq : reportRows (format_report false (generate treeC1)).1
      = [[Cell.str "A", Cell.str "VO1", Cell.str "P1", Cell.str "Proj1", Cell.num 10],
         [Cell.str "A", Cell.str "VO1", Cell.str "P1", Cell.str "Proj2", Cell.num 5],
         [Cell.str "Total", Cell.str "", Cell.str "", Cell.str "", Cell.num 15]] := by
    rw [hg]
    simp only [reportRows, header, List.map_cons, List.map_nil, h1, h2, h3, h4, h5,
               Option.getD_some]
    decide
  refine ⟨heq, ?_⟩
  rw [heq]
  decide

/-- C2: the assembler initializes every header column to the empty sequence,
and for each record appends the record's k-th positional tuple value as one
cell to the k-th header column — the first tuple element goes to "VOName",
the second to "SiteName", and so on, exactly one cell per column per
record. -/
theorem claim_C2_positional_assembly (t : FlatRecord) (r : Report)
    (v1 v2 v3 v4 v5 : List Cell)
    (h1 : r "VOName" = some v1) (h2 : r "SiteName" = some v2)
    (h3 : r "ProbeName" = some v3) (h4 : r "ProjectName" = some v4)
    (h5 : r "Wall Hours" = some v5) :
    (initReport "VOName" = some [] ∧ initReport "SiteName" = some [] ∧
     initReport "ProbeName" = some [] ∧ initReport "ProjectName" = some [] ∧
     initReport "Wall Hours" = some []) ∧
    addRecord r t "VOName" = some (v1 ++ [Cell.str t.1]) ∧
    addRecord r t "SiteName" = some (v2 ++ [Cell.str t.2.1]) ∧
    addRecord r t "ProbeName" = some (v3 ++ [Cell.str t.2.2.1]) ∧
    addRecord r t "ProjectName" = some (v4 ++ [Cell.str t.2.2.2.1]) ∧
    addRecord r t "Wall Hours" = some (v5 ++ [Cell.num t.2.2.2.2]) :=
  ⟨⟨rfl, rfl, rfl, rfl, rfl⟩,
    addRecord_VOName r t v1 h1, addRecord_SiteName r t v2 h2,
    addRecord_ProbeName r t v3 h3, addRecord_ProjectName r t v4 h4,
    addRecord_WallHours r t v5 h5⟩

/-- Witness for C2 at a concrete record and the freshly initialized
dictionary. -/
theorem claim_C2_witness :
    addRecord initReport ("s", "v", "p", "j", (2 : ℚ)) "VOName"
        = some [Cell.str "s"] ∧
    addRecord initReport ("s", "v", "p", "j", (2 : ℚ)) "Wall Hours"
        = some [Cell.num 2] := by
  have h := claim_C2_positional_assembly ("s", "v", "p", "j", (2 : ℚ)) initReport
    [] [] [] [] [] rfl rfl rfl rfl rfl
  exact ⟨by simpa using h.2.1, by simpa using h.2.2.2.2.2⟩

/-- C3: for every record sequence, the assembler computes the total as the
left-fold sum, in input order, of the Wall Hours column (0 when empty) and
appends exactly one final row holding "Total" under VOName, the total under
Wall Hours and the empty string elsewhere; the total row is last and its
value does not include itself. -/
theorem claim_C3_total_row (verbose : Bool) (records : List FlatRecord) :
    (format_report verbose records).1 "VOName"
        = some ((records.map fun t => Cell.str t.1) ++ [Cell.str "Total"]) ∧
    (format_report verbose records).1 "SiteName"
        = some ((records.map fun t => Cell.str t.2.1) ++ [Cell.str ""]) ∧
    (format_report verbose records).1 "ProbeName"
        = some ((records.map fun t => Cell.str t.2.2.1) ++ [Cell.str ""]) ∧
    (format_report verbose records).1 "ProjectName"
        = some ((records.map fun t => Cell.str t.2.2.2.1) ++ [Cell.str ""]) ∧
    (format_report verbose records).1 "Wall Hours"
        = some ((records.map fun t => Cell.num t.2.2.2.2)
            ++ [Cell.num ((records.map fun t => t.2.2.2.2).foldl
                  (fun x y => x + y) 0)]) := by
  have h := format_report_cols verbose records
  have e : (records.map fun t => Cell.num t.2.2.2.2)
      = (records.map fun t => t.2.2.2.2).map Cell.num := by
    simp [List.map_map]
  have e2 : sumCells (records.map fun t => Cell.num t.2.2.2.2)
      = (records.map fun t => t.2.2.2.2).foldl (fun x y => x + y) 0 := by
    rw [e]; exact sumCells_map_num _
  refine ⟨h.1, h.2.1, h.2.2.1, h.2.2.2.1, ?_⟩
  rw [← e2]
  exact h.2.2.2.2

/-- C4: every column sequence present in the assembled report has the same
length, the number of records plus one. -/
theorem claim_C4_column_length (verbose : Bool) (records : List FlatRecord)
    (name : String) (l : List Cell)
    (h : (format_report verbose records).1 name = some l) :
    l.length = records.length + 1 := by
  have hc := format_report_cols verbose records
  by_cases e1 : name = "VOName"
  · subst e1; rw [hc.1] at h; cases Option.some.inj h; simp
  by_cases e2 : name = "SiteName"
  · subst e2; rw [hc.2.1] at h; cases Option.some.inj h; simp
  by_cases e3 : name = "ProbeName"
  · subst e3; rw [hc.2.2.1] at h; cases Option.some.inj h; simp
  by_cases e4 : name = "ProjectName"
  · subst e4; rw [hc.2.2.2.1] at h; cases Option.some.inj h; simp
  by_cases e5 : name = "Wall Hours"
  · subst e5; rw [hc.2.2.2.2] at h; cases Option.some.inj h; simp
  rw [format_report_none verbose records name e1 e2 e3 e4 e5] at h
  exact absurd h (by simp)

/-- Witness for C4 at one concrete record and the "VOName" column. -/
theorem claim_C4_witness :
    ([Cell.str "s", Cell.str "Total"] : List Cell).length
      = [(("s", "v", "p", "j", (2 : ℚ)) : FlatRecord)].length + 1 :=
  claim_C4_column_length false [("s", "v", "p", "j", (2 : ℚ))] "VOName"
    [Cell.str "s", Cell.str "Total"]
    (by simpa using (format_report_cols false [("s", "v", "p", "j", (2 : ℚ))]).1)

/-- C5: flattening is the depth-first traversal of the four levels in the
fixed order Site, VO, Probe, Project, in the store's bucket order, emitting
exactly one record per fourth-level bucket with no filtering, sorting or
deduplication; in particular the one-leaf tree yields exactly
("S1","V1","P1","Pr1",5). -/
theorem claim_C5_flatten_order (t : BucketTree) :
    generate t = flattenSpec t ∧
    (generate t).length = numLeaves t ∧
    generate treeS1 = [("S1", "V1", "P1", "Pr1", (5 : ℚ))] :=
  ⟨generate_eq_flattenSpec t, generate_length t, rfl⟩

/-- C6: a tree with zero site buckets flattens to zero records, and
assembling zero records yields a report whose five columns each have length
one and hold only the total row, with Wall Hours 0. -/
theorem claim_C6_empty_input (verbose : Bool) :
    generate emptyTree = [] ∧
    (format_report verbose []).1 "VOName" = some [Cell.str "Total"] ∧
    (format_report verbose []).1 "SiteName" = some [Cell.str ""] ∧
    (format_report verbose []).1 "ProbeName" = some [Cell.str ""] ∧
    (format_report verbose []).1 "ProjectName" = some [Cell.str ""] ∧
    (format_report verbose []).1 "Wall Hours" = some [Cell.num 0] ∧
    reportRows (format_report verbose []).1
      = [[Cell.str "Total", Cell.str "", Cell.str "", Cell.str "", Cell.num 0]] := by
  have h := format_report_cols verbose []
  simp only [List.map_nil, List.nil_append] at h
  have h5 : (format_report verbose []).1 "Wall Hours" = some [Cell.num 0] := by
    simpa [sumCells] using h.2.2.2.2
  refine ⟨rfl, h.1, h.2.1, h.2.2.1, h.2.2.2.1, h5, ?_⟩
  simp only [reportRows, header, List.map_cons, List.map_nil, h.1, h.2.1, h.2.2.1,
             h.2.2.2.1, h5, Option.getD_some]
  decide

/-- C7: the built request consists of the half-open range filter on EndTime
(parameters gte = start, lt = end), the terms filter on ProbeName over the
split probe list, the fixed equality filter ResourceType = "Payload", result
size 0, the four nested terms aggregations Site → VOName → ProbeName →
ProjectName on fields SiteName, ReportableVOName, ProbeName, ProjectName,
each sized 2^31 - 1, the fourth substituting "N/A" for a missing
ProjectName, and the leaf sum metric over CoreHours. -/
theorem claim_C7_query_shape (idx st en probes : String) :
    (query idx st en probes).filters
        = [Filter.range "EndTime" [("gte", st), ("lt", en)],
           Filter.terms "ProbeName" (splitCommaStr probes),
           Filter.term "ResourceType" "Payload"] ∧
    (query idx st en probes).sliceFrom = 0 ∧
    (query idx st en probes).sliceTo = 0 ∧
    (query idx st en probes).aggs
        = [Agg.bucket "group_Site" "terms" "SiteName" (2 ^ 31 - 1) none
            [Agg.bucket "group_VOName" "terms" "ReportableVOName" (2 ^ 31 - 1) none
              [Agg.bucket "group_ProbeName" "terms" "ProbeName" (2 ^ 31 - 1) none
                [Agg.bucket "group_ProjectName" "terms" "ProjectName" (2 ^ 31 - 1)
                  (some "N/A")
                  [Agg.metric "CoreHours_sum" "sum" "CoreHours"]]]]] ∧
    MAXINT = 2 ^ 31 - 1 :=
  ⟨rfl, rfl, rfl, rfl, rfl⟩

/-- C8: flattening is restartable — two traversals of the same fixed tree
produce identical, order-equal sequences, and each traversal is finite, with
one record per fourth-level bucket. -/
theorem claim_C8_restartable (t : BucketTree) :
    ((generate t, generate t).1 = (generate t, generate t).2) ∧
    (generate t).length = numLeaves t :=
  ⟨rfl, generate_length t⟩

/-- C9: the probe list is exactly the comma split of the configuration
string: rejoining the pieces with commas restores the string, the number of
pieces is the comma count plus one (so empty pieces are kept, never
filtered), no piece contains a comma, and in particular "a,,b" splits to
["a", "", "b"] and "" splits to [""]. -/
theorem claim_C9_probe_split (l : List Char) :
    joinComma (splitComma l) = l ∧
    (splitComma l).length = l.count ',' + 1 ∧
    ((splitComma l).all fun w => w.all fun c => c != ',') = true ∧
    splitCommaStr "a,,b" = ["a", "", "b"] ∧
    splitCommaStr "" = [""] :=
  ⟨joinComma_splitComma l, splitComma_length l, splitComma_no_comma l,
    by decide, by decide⟩

/-- C10: the assembled report mapping is the same whether the verbose flag
is true or false; verbosity only adds printed lines. -/
theorem claim_C10_verbose_noninterference (t : BucketTree) (b1 b2 : Bool) :
    (format_report b1 (generate t)).1 = (format_report b2 (generate t)).1 := by
  rw [format_report_fst, format_report_fst]

end FlockingReport
